import Mathlib

/-!
# crocmobile: the asynchronous send adapter

A shallow embedding of `src/crocmobile/crocmobile.go`.

* Go strings are Lean strings; `len(s) == 0` is `s.length == 0`.  The only
  byte-level operation of the file is the split of the relay ports on the
  ASCII comma, which cuts a string at the same places whether it is read as
  bytes or as characters.
* A Go `error` is `Option GoError` (`none` is `nil`), a nilable pointer or
  interface is an `Option`.
* Everything `Send` reaches outside the file (the engine package `croc`, the
  constants of `models`, `utils.GetRandomName`, `math/rand`, `os.Pipe`,
  `context.WithCancel`) is a field of `World`: the theorems hold for every
  value of these fields unless a hypothesis says otherwise.
* Effects are recorded as a list of `Event`s in program order; the process-wide
  `os.Stderr` is a field of an explicit `Process` state.
-/

namespace crocmobile

/-! ## Data model -/

/-- A non-nil Go `error`, with its message. -/
structure GoError where
  msg : String
  deriving DecidableEq, Repr

/-- The constructor `errors.New` of the Go standard library. -/
def errors.New (text : String) : GoError := ⟨text⟩

/-- The struct `Options` (lines 28-52). -/
structure Options where
  IsSender : Bool
  SharedSecret : String
  Debug : Bool
  DebugWrapper : Bool
  RelayAddress : String
  RelayAddress6 : String
  RelayPorts : String
  RelayPassword : String
  Stdout : Bool
  NoPrompt : Bool
  NoMultiplexing : Bool
  DisableLocal : Bool
  OnlyLocal : Bool
  IgnoreStdin : Bool
  Ask : Bool
  SendingText : Bool
  NoCompress : Bool
  IP : String
  Overwrite : Bool
  Curve : String
  HashAlgorithm : String
  ThrottleUpload : String
  ZipFolder : Bool
  deriving DecidableEq, Repr

/-- The engine's configuration record `croc.Options`.  Its declaration lies
outside the source file; the fields are the ones the composite literal of
`Send` (lines 113-135) names, with the types of the values it stores there. -/
structure croc.Options where
  SharedSecret : String
  IsSender : Bool
  Debug : Bool
  NoPrompt : Bool
  RelayAddress : String
  RelayAddress6 : String
  Stdout : Bool
  DisableLocal : Bool
  OnlyLocal : Bool
  IgnoreStdin : Bool
  RelayPorts : List String
  Ask : Bool
  NoMultiplexing : Bool
  RelayPassword : String
  SendingText : Bool
  NoCompress : Bool
  Overwrite : Bool
  Curve : String
  HashAlgorithm : String
  ThrottleUpload : String
  ZipFolder : Bool
  deriving DecidableEq, Repr

/-- The struct `TransferRequest` (lines 54-58).  `ctxCancel` points to the
cancel function of the request's context, identified here by the number of the
context it cancels.  The field `Type` is spelled `TxType`, `Type` being reserved. -/
structure TransferRequest where
  ID : Int
  TxType : Int
  ctxCancel : Nat
  deriving DecidableEq, Repr

/-- The constant `SendTx` (line 65). -/
def SendTx : Int := 0

/-- The constant `ReceieveTx` (line 66). -/
def ReceieveTx : Int := 1

/-- A call of one method of the caller's `Handlers` interface (lines 16-26),
with its arguments in order. -/
inductive HandlerCall where
  | TransferStarted (requestID : Int)
  | TransferProgress (requestID fileSize bytesTransferred msElapsed
      totalBytesTransferred totalMsElapsed : Int)
  | TransferComplete (requestID : Int) (err : Option GoError)
  deriving DecidableEq, Repr

/-- A value of the interface type `Handlers`: the caller's object, known to the
adapter only through the three methods it may call on it. -/
structure Handlers where
  obj : Nat
  deriving DecidableEq, Repr

/-- The engine's callback record `croc.Handlers`: two function fields, `nil`
(`none`) until set.  A function value is modelled by the calls it makes on the
caller's interface when the engine invokes it. -/
structure croc.Handlers where
  TransferStarted : Option (Unit → List HandlerCall)
  TransferProgress : Option (Int → Int → Int → Int → Int → List HandlerCall)

/-- What the enumeration step returns besides its error: the minimal file
infos, the empty folders and the number of folders.  The adapter only hands
them on to the engine. -/
structure FilesInfo where
  minimalFileInfos : List String
  emptyFoldersToTransfer : List String
  totalNumberFolders : Int
  deriving DecidableEq, Repr

/-- The engine instance `*croc.Client`, as far as `Send` touches it: the
configuration it was built from and the two fields `Send` assigns. -/
structure croc.Client where
  Options : croc.Options
  Context : Option Nat
  Handlers : croc.Handlers

/-- A callback the engine makes during its send call: `started()` or
`progress(...)`. -/
inductive EngineCall where
  | started
  | progress (fileSize bytesTransferred msElapsed totalBytesTransferred
      totalMsElapsed : Int)
  deriving DecidableEq, Repr

/-- An `*os.File`: `nil` or an open file. -/
inductive File where
  | nil
  | fd (n : Nat)
  deriving DecidableEq, Repr

/-- The process-wide state the adapter writes: the variable `os.Stderr`. -/
structure Process where
  Stderr : File
  deriving DecidableEq, Repr

/-- The world outside the file, one value for each thing `Send` obtains from
it. -/
structure World where
  /-- the value of `models.DEFAULT_RELAY` -/
  DEFAULT_RELAY : String
  /-- the value of `models.DEFAULT_RELAY6` -/
  DEFAULT_RELAY6 : String
  /-- the result of `utils.GetRandomName()` -/
  GetRandomName : String
  /-- the function `croc.GetFilesInfo` -/
  GetFilesInfo : List String → Bool → FilesInfo × Option GoError
  /-- the error result of `croc.New` -/
  New : croc.Options → Option GoError
  /-- the draw behind `rand.Intn` -/
  rand : Nat
  /-- the context `context.WithCancel` creates -/
  WithCancel : Nat
  /-- the two ends `os.Pipe()` returns, read end first -/
  Pipe : File × File
  /-- the engine's send call: the callbacks it makes, in order, and the error
  it returns -/
  ClientSend : croc.Options → FilesInfo → List EngineCall × Option GoError

/-- An observable effect. -/
inductive Event where
  /-- the call `croc.GetFilesInfo(fnames, zipfolder)` -/
  | GetFilesInfo (fnames : List String) (zipfolder : Bool)
  /-- the call `croc.New(ops)` -/
  | New (ops : croc.Options)
  /-- the `go` statement of line 170 -/
  | go
  /-- the call `os.Pipe()` with its results -/
  | Pipe (r w : File)
  /-- an assignment `os.Stderr = f` -/
  | setStderr (f : File)
  /-- a call `f.Close()` -/
  | Close (f : File)
  /-- the engine's send call begins -/
  | ClientSend
  /-- the engine's send call returns `err` -/
  | ClientReturn (err : Option GoError)
  /-- a call of a method of the caller's interface -/
  | handler (c : HandlerCall)
  /-- an invocation of the cancel function of context `ctx` -/
  | ctxCancel (ctx : Nat)
  deriving DecidableEq, Repr

/-! ## The standard-library split -/

/-- `strings.Index(s, sep)` for a separator of one byte: the position of its
first occurrence, `none` where Go returns `-1`. -/
def strings.Index : List Char → Char → Option Nat
  | [], _ => none
  | c :: cs, sep => if c = sep then some 0 else (strings.Index cs sep).map (· + 1)

/-- `strings.Count(s, sep)` for a separator of one byte. -/
def strings.Count : List Char → Char → Nat
  | [], _ => 0
  | c :: cs, sep => (if c = sep then 1 else 0) + strings.Count cs sep

/-- The loop of Go's `genSplit` for a separator of one byte, `n` being the
number of rounds left (`for i < n`): cut at the first separator, `break` when
there is none, and store what is left as the last segment. -/
def strings.genSplit (sep : Char) : Nat → List Char → List (List Char)
  | 0, s => [s]
  | n + 1, s =>
    match strings.Index s sep with
    | none => [s]
    | some m => s.take m :: strings.genSplit sep n (s.drop (m + 1))

/-- `strings.Split(s, sep)` for a separator of one byte: `genSplit` run for
`Count(s, sep)` rounds (Go sets `n = Count(s, sep) + 1` and decrements it before
the loop). -/
def strings.Split (s : String) (sep : Char) : List String :=
  (strings.genSplit sep (strings.Count s.data sep) s.data).map String.mk

/-! ## Operations -/

/-- `NewOptions` (lines 73-98).  The field `IP`, which the literal does not
name, has Go's zero value. -/
def NewOptions (w : World) : Options :=
  { SharedSecret := w.GetRandomName
    IsSender := true
    Debug := false
    NoPrompt := false
    RelayAddress := "croc.schollz.com"
    RelayAddress6 := "croc6.schollz.com"
    Stdout := false
    DisableLocal := false
    OnlyLocal := false
    IgnoreStdin := false
    RelayPorts := "9009,9010,9011,9012,9013"
    Ask := false
    NoMultiplexing := false
    RelayPassword := "pass123"
    SendingText := false
    NoCompress := false
    Overwrite := false
    Curve := "p256"
    HashAlgorithm := "xxhash"
    ThrottleUpload := ""
    ZipFolder := false
    DebugWrapper := false
    IP := "" }

/-- `newTransferRequest` (lines 192-201): the context and the request. -/
def newTransferRequest (w : World) (transferType : Int) : Nat × TransferRequest :=
  let id : Int := ((w.rand % 10000 : Nat) : Int)
  let ctx := w.WithCancel
  (ctx, { ID := id, TxType := transferType, ctxCancel := ctx })

/-- `TransferRequest.Cancel` (lines 60-62): one invocation of the cancel
function the request points to. -/
def TransferRequest.Cancel (r : TransferRequest) : List Event :=
  [Event.ctxCancel r.ctxCancel]

/-- The engine configuration `Send` builds from the options (lines 113-141):
the composite literal, then the relay-address rule. -/
def Send.crocOptions (w : World) (options : Options) : croc.Options :=
  let crocOptions : croc.Options :=
    { SharedSecret := options.SharedSecret
      IsSender := options.IsSender
      Debug := options.Debug
      NoPrompt := options.NoPrompt
      RelayAddress := options.RelayAddress
      RelayAddress6 := options.RelayAddress6
      Stdout := options.Stdout
      DisableLocal := options.DisableLocal
      OnlyLocal := options.OnlyLocal
      IgnoreStdin := options.IgnoreStdin
      RelayPorts := strings.Split options.RelayPorts ','
      Ask := options.Ask
      NoMultiplexing := options.NoMultiplexing
      RelayPassword := options.RelayPassword
      SendingText := options.SendingText
      NoCompress := options.NoCompress
      Overwrite := options.Overwrite
      Curve := options.Curve
      HashAlgorithm := options.HashAlgorithm
      ThrottleUpload := options.ThrottleUpload
      ZipFolder := options.ZipFolder }
  if crocOptions.RelayAddress ≠ w.DEFAULT_RELAY then
    { crocOptions with RelayAddress6 := "" }
  else if crocOptions.RelayAddress6 ≠ w.DEFAULT_RELAY6 then
    { crocOptions with RelayAddress := "" }
  else
    crocOptions

/-- The variables the function literal of line 170 captures.  `options` is read
once, when the unit starts. -/
structure Goroutine where
  options : Options
  crocClient : croc.Client
  files : FilesInfo
  handlers : Option Handlers
  request : TransferRequest

/-- What a call of `Send` leaves behind: its two results, the effects it had
before returning, the engine configuration it built (if it came that far) and
the unit it started (if it did). -/
structure SendResult where
  request : Option TransferRequest
  err : Option GoError
  trace : List Event
  crocOptions : Option croc.Options
  spawned : Option Goroutine

/-- The callbacks `Send` installs in the engine instance (lines 159-168): two
function literals that call the caller's interface with `request.ID` put first.
Without handlers nothing is assigned and the two fields stay `nil`. -/
def Send.bridge (handlers : Option Handlers) (request : TransferRequest) :
    croc.Handlers :=
  match handlers with
  | none => { TransferStarted := none, TransferProgress := none }
  | some _ =>
    { TransferStarted := some fun _ => [HandlerCall.TransferStarted request.ID]
      TransferProgress := some
        fun fileSize bytesTransferred msElapsed totalBytesTransferred totalMsElapsed =>
          [HandlerCall.TransferProgress request.ID fileSize bytesTransferred msElapsed
            totalBytesTransferred totalMsElapsed] }

/-- `Send` (lines 100-190), up to and including the `go` statement. -/
def Send (w : World) (fileAtPath : String) (options : Option Options)
    (handlers : Option Handlers) : SendResult :=
  if fileAtPath.length == 0 then
    { request := none, err := some (errors.New "fileAtPath is not set"), trace := [],
      crocOptions := none, spawned := none }
  else
    let options : Options :=
      match options with
      | none => NewOptions w
      | some o => o
    if options.SharedSecret.length == 0 then
      { request := none, err := some (errors.New "shared secret is not set"), trace := [],
        crocOptions := none, spawned := none }
    else
      let crocOptions := Send.crocOptions w options
      let fnames := [fileAtPath]
      let enumerated := w.GetFilesInfo fnames crocOptions.ZipFolder
      match enumerated.2 with
      | some err =>
        { request := none, err := some err,
          trace := [Event.GetFilesInfo fnames crocOptions.ZipFolder],
          crocOptions := some crocOptions, spawned := none }
      | none =>
        match w.New crocOptions with
        | some err =>
          { request := none, err := some err,
            trace := [Event.GetFilesInfo fnames crocOptions.ZipFolder, Event.New crocOptions],
            crocOptions := some crocOptions, spawned := none }
        | none =>
          let created := newTransferRequest w SendTx
          let request := created.2
          let crocClient : croc.Client :=
            { Options := crocOptions, Context := some created.1,
              Handlers := Send.bridge handlers request }
          { request := some request, err := none,
            trace := [Event.GetFilesInfo fnames crocOptions.ZipFolder, Event.New crocOptions,
              Event.go],
            crocOptions := some crocOptions,
            spawned := some
              { options := options, crocClient := crocClient, files := enumerated.1,
                handlers := handlers, request := request } }

/-- Modelled from the spec: the engine's own code lies outside the source file.
When the engine makes a callback, the function stored in the field of the
instance runs; a field left `nil` is skipped, the engine then running with no
observer. -/
def croc.Client.callback (c : croc.Client) : EngineCall → List HandlerCall
  | .started =>
    match c.Handlers.TransferStarted with
    | some f => f ()
    | none => []
  | .progress fileSize bytesTransferred msElapsed totalBytesTransferred totalMsElapsed =>
    match c.Handlers.TransferProgress with
    | some f => f fileSize bytesTransferred msElapsed totalBytesTransferred totalMsElapsed
    | none => []

/-- One run of the unit: its effects in order, the process state in which the
engine's send call runs, and the process state it leaves. -/
structure UnitRun where
  trace : List Event
  during : Process
  final : Process

/-- The body of the function literal of lines 170-187, run from the process
state `p`: the redirection of `os.Stderr` unless `DebugWrapper` is set, the
engine's send call with the callbacks it makes, the completion call, the cancel
function, and last the deferred function. -/
def Goroutine.run (w : World) (g : Goroutine) (p : Process) : UnitRun :=
  let silenced := !g.options.DebugWrapper
  let old := p.Stderr
  let pipe := w.Pipe
  let p1 : Process := if silenced then { p with Stderr := pipe.2 } else p
  let sent := w.ClientSend g.crocClient.Options g.files
  let err := sent.2
  let complete : List HandlerCall :=
    match g.handlers with
    | some _ => [HandlerCall.TransferComplete g.request.ID err]
    | none => []
  let p2 : Process := if silenced then { p1 with Stderr := old } else p1
  { trace :=
      (if silenced then [Event.Pipe pipe.1 pipe.2, Event.setStderr pipe.2] else [])
        ++ [Event.ClientSend]
        ++ (sent.1.flatMap g.crocClient.callback).map Event.handler
        ++ [Event.ClientReturn err]
        ++ complete.map Event.handler
        ++ [Event.ctxCancel g.request.ctxCancel]
        ++ (if silenced then
              [Event.Close pipe.2, Event.Close pipe.1, Event.setStderr old]
            else [])
    during := p1
    final := p2 }

/-- The effects of a request's life after `Send` has returned: the unit's
effects with the caller's calls of `Cancel()` in between.  The schedule says
whose turn it is, `true` for a call of `Cancel()` and `false` for the unit's
next effect; when the schedule ends the unit runs on alone. -/
def history (r : TransferRequest) : List Bool → List Event → List Event
  | [], evs => evs
  | true :: sched, evs => r.Cancel ++ history r sched evs
  | false :: sched, [] => history r sched []
  | false :: sched, e :: evs => e :: history r sched evs

/-- Whether an event is a call of a method of the caller's interface. -/
def Event.isHandlerCall : Event → Bool
  | .handler _ => true
  | _ => false

/-- Whether an event is a call of `TransferComplete`. -/
def Event.isComplete : Event → Bool
  | .handler (.TransferComplete _ _) => true
  | _ => false

/-- Whether an event is an invocation of a cancel function. -/
def Event.isCancel : Event → Bool
  | .ctxCancel _ => true
  | _ => false

/-- Whether an event is an assignment to `os.Stderr`. -/
def Event.isSetStderr : Event → Bool
  | .setStderr _ => true
  | _ => false

/-! ## Sample inputs

Concrete worlds and options on which the theorems below are instantiated. -/

/-- Modelled from the spec: the constants `models.DEFAULT_RELAY` and
`models.DEFAULT_RELAY6` are declared outside the source file; the spec takes
the relay hosts of `NewOptions` to be the compiled-in defaults, and this world
gives the two constants those values.  Its other fields are one behaviour of
the collaborators: enumeration and construction succeed, the engine reports a
start and two progress steps and returns no error. -/
def sampleWorld : World :=
  { DEFAULT_RELAY := "croc.schollz.com"
    DEFAULT_RELAY6 := "croc6.schollz.com"
    GetRandomName := "alpha-beta-gamma"
    GetFilesInfo := fun fnames _ => (⟨fnames, [], 0⟩, none)
    New := fun _ => none
    rand := 12345
    WithCancel := 7
    Pipe := (File.fd 3, File.fd 4)
    ClientSend := fun _ _ =>
      ([EngineCall.started, EngineCall.progress 10 4 1 4 1, EngineCall.progress 10 10 2 10 2],
        none) }

/-- The sample world with a file enumeration that fails. -/
def failingWorld : World :=
  { sampleWorld with
    GetFilesInfo := fun _ _ => (⟨[], [], 0⟩, some (errors.New "no such file")) }

/-- The sample world with an engine constructor that fails. -/
def refusingWorld : World :=
  { sampleWorld with New := fun _ => some (errors.New "bad configuration") }

/-- The sample world with a name generator that returns the empty string. -/
def muteWorld : World :=
  { sampleWorld with GetRandomName := "" }

/-- The sample world with an engine that reports a start and then fails. -/
def brokenWorld : World :=
  { sampleWorld with
    ClientSend := fun _ _ => ([EngineCall.started], some (errors.New "peer went away")) }

/-- A caller's handlers object. -/
def sampleHandlers : Handlers := ⟨1⟩

/-- The default options with the primary relay overridden. -/
def customRelay : Options :=
  { NewOptions sampleWorld with RelayAddress := "custom.example.com" }

/-- The default options with the secondary relay overridden. -/
def customRelay6 : Options :=
  { NewOptions sampleWorld with RelayAddress6 := "custom6.example.com" }

/-- The default options with the primary relay overridden by the empty string. -/
def emptyRelay : Options :=
  { NewOptions sampleWorld with RelayAddress := "" }

/-- The default options with a port list that has empty segments. -/
def oddPorts : Options :=
  { NewOptions sampleWorld with RelayPorts := "9009,,9010," }

/-- The default options with the shared secret blanked. -/
def blankSecret : Options :=
  { NewOptions sampleWorld with SharedSecret := "" }

/-- The default options with the wrapper's own diagnostics left on. -/
def debugWrapper : Options :=
  { NewOptions sampleWorld with DebugWrapper := true }

/-- The sample world with the two constants of `models` holding a resolved
address each instead of the host names `NewOptions` writes. -/
def resolvedWorld : World :=
  { sampleWorld with
    DEFAULT_RELAY := "203.0.113.7:9009"
    DEFAULT_RELAY6 := "[2001:db8::7]:9009" }

/-! ## Lemmas on strings and on the split -/

theorem String.length_eq_zero_iff (s : String) : s.length = 0 ↔ s = "" := by
  constructor
  · intro h
    apply String.ext
    exact List.length_eq_zero.mp h
  · rintro rfl; rfl


theorem strings.Count_eq_count (s : List Char) (sep : Char) :
    strings.Count s sep = s.count sep := by
  induction s with
  | nil => rfl
  | cons c cs ih =>
    by_cases h : c = sep
    · simp [strings.Count, ih, h, Nat.add_comm]
    · simp [strings.Count, ih, h, List.count_cons]

theorem strings.Index_none {s : List Char} {sep : Char}
    (h : strings.Index s sep = none) : sep ∉ s := by
  induction s with
  | nil => simp
  | cons c cs ih =>
    by_cases hc : c = sep
    · simp [strings.Index, hc] at h
    · simp only [strings.Index, hc, if_false, Option.map_eq_none'] at h
      simp [ih h, Ne.symm hc]

theorem strings.Index_some {sep : Char} : ∀ {s : List Char} {m : Nat},
    strings.Index s sep = some m →
      sep ∉ s.take m ∧ s = s.take m ++ sep :: s.drop (m + 1) := by
  intro s
  induction s with
  | nil => intro m h; simp [strings.Index] at h
  | cons c cs ih =>
    intro m h
    by_cases hc : c = sep
    · simp only [strings.Index, hc, if_true, Option.some.injEq] at h
      subst h
      simp [hc]
    · simp only [strings.Index, hc, if_false, Option.map_eq_some'] at h
      obtain ⟨k, hk, rfl⟩ := h
      obtain ⟨h1, h2⟩ := ih hk
      refine ⟨?_, ?_⟩
      · simp [List.take_succ_cons, h1, Ne.symm hc]
      · simp only [List.take_succ_cons, List.drop_succ_cons, List.cons_append]
        exact congrArg (c :: ·) h2

theorem strings.genSplit_spec (sep : Char) : ∀ (n : Nat) (s : List Char),
    s.count sep = n →
      (strings.genSplit sep n s).length = n + 1
      ∧ (∀ seg ∈ strings.genSplit sep n s, sep ∉ seg)
      ∧ [sep].intercalate (strings.genSplit sep n s) = s := by
  intro n
  induction n with
  | zero =>
    intro s h
    refine ⟨rfl, ?_, ?_⟩
    · intro seg hseg
      simp only [strings.genSplit, List.mem_singleton] at hseg
      subst hseg
      exact List.count_eq_zero.mp h
    · simp [strings.genSplit, List.intercalate]
  | succ n ih =>
    intro s h
    cases hi : strings.Index s sep with
    | none =>
      have := strings.Index_none hi
      rw [List.count_eq_zero.mpr this] at h
      omega
    | some m =>
      obtain ⟨h1, h2⟩ := strings.Index_some hi
      have hcount : (s.drop (m + 1)).count sep = n := by
        have h3 := congrArg (List.count sep) h2
        rw [List.count_append, List.count_eq_zero.mpr h1, List.count_cons_self, h] at h3
        omega
      obtain ⟨l1, l2, l3⟩ := ih _ hcount
      simp only [strings.genSplit, hi]
      refine ⟨by simp [l1], ?_, ?_⟩
      · intro seg hseg
        rcases List.mem_cons.mp hseg with rfl | hseg
        · exact h1
        · exact l2 seg hseg
      · cases hg : strings.genSplit sep n (List.drop (m + 1) s) with
        | nil => rw [hg] at l1; simp at l1
        | cons b bs =>
          rw [hg] at l3
          conv_rhs => rw [h2, ← l3]
          simp [List.intercalate, List.intersperse]


theorem intercalate_cons_eq (sep a : List Char) (l : List (List Char)) :
    sep.intercalate (a :: l) = a ++ (l.map (sep ++ ·)).flatten := by
  induction l generalizing a with
  | nil => simp [List.intercalate]
  | cons b bs ih =>
    have := ih b
    simp only [List.intercalate, List.intersperse] at this ⊢
    simp [this]

theorem String.intercalate_go_data (sep : String) : ∀ (l : List String) (acc : String),
    (String.intercalate.go acc sep l).data
      = acc.data ++ (l.map fun a => sep.data ++ a.data).flatten := by
  intro l
  induction l with
  | nil => intro acc; simp [String.intercalate.go]
  | cons a as ih => intro acc; simp [String.intercalate.go, ih]

theorem String.intercalate_data (sep : String) (l : List String) :
    (sep.intercalate l).data = sep.data.intercalate (l.map String.data) := by
  cases l with
  | nil => simp [String.intercalate, List.intercalate]
  | cons a as =>
    simp [String.intercalate, String.intercalate_go_data, intercalate_cons_eq, List.map_map,
      Function.comp_def]

theorem strings.Split_length (s : String) (sep : Char) :
    (strings.Split s sep).length = s.data.count sep + 1 := by
  have h := (strings.genSplit_spec sep _ s.data rfl).1
  simp [strings.Split, strings.Count_eq_count, h]

theorem strings.Split_no_sep (s : String) (sep : Char) :
    ∀ seg ∈ strings.Split s sep, sep ∉ seg.data := by
  intro seg hseg
  simp only [strings.Split, List.mem_map, strings.Count_eq_count] at hseg
  obtain ⟨cs, hcs, rfl⟩ := hseg
  exact (strings.genSplit_spec sep _ s.data rfl).2.1 cs hcs

theorem strings.Split_join (s : String) (sep : Char) :
    (String.singleton sep).intercalate (strings.Split s sep) = s := by
  apply String.ext
  rw [String.intercalate_data]
  have h := (strings.genSplit_spec sep _ s.data rfl).2.2
  simp only [strings.Split, strings.Count_eq_count, List.map_map]
  have hid : (String.data ∘ String.mk) = id := by funext x; rfl
  rw [hid, List.map_id]
  exact h

/-! ## Lemmas on `Send` and on the unit it starts -/

/-- With an empty path `Send` returns at line 103. -/
theorem Send_empty_path (w : World) (options : Option Options) (handlers : Option Handlers) :
    Send w "" options handlers =
      { request := none, err := some (errors.New "fileAtPath is not set"), trace := [],
        crocOptions := none, spawned := none } := by
  rfl

/-- With a path but an empty secret after defaulting, `Send` returns at line 110. -/
theorem Send_empty_secret (w : World) (fileAtPath : String) (options : Option Options)
    (handlers : Option Handlers) (hp : fileAtPath ≠ "")
    (hs : (options.getD (NewOptions w)).SharedSecret = "") :
    Send w fileAtPath options handlers =
      { request := none, err := some (errors.New "shared secret is not set"), trace := [],
        crocOptions := none, spawned := none } := by
  have hp2 : ¬ fileAtPath.length = 0 := fun h => hp ((String.length_eq_zero_iff _).mp h)
  cases options with
  | none =>
    simp only [Option.getD_none] at hs
    simp [Send, hp2, hs]
  | some o =>
    simp only [Option.getD_some] at hs
    simp [Send, hp2, hs]

/-- Past the two checks, `Send` is decided by the enumeration and by the engine constructor. -/
theorem Send_valid (w : World) (fileAtPath : String) (options : Option Options)
    (handlers : Option Handlers) (hp : fileAtPath ≠ "")
    (hs : (options.getD (NewOptions w)).SharedSecret ≠ "") :
    Send w fileAtPath options handlers =
      match (w.GetFilesInfo [fileAtPath]
          (Send.crocOptions w (options.getD (NewOptions w))).ZipFolder).2 with
      | some err =>
        { request := none, err := some err,
          trace := [Event.GetFilesInfo [fileAtPath]
            (Send.crocOptions w (options.getD (NewOptions w))).ZipFolder],
          crocOptions := some (Send.crocOptions w (options.getD (NewOptions w))),
          spawned := none }
      | none =>
        match w.New (Send.crocOptions w (options.getD (NewOptions w))) with
        | some err =>
          { request := none, err := some err,
            trace := [Event.GetFilesInfo [fileAtPath]
              (Send.crocOptions w (options.getD (NewOptions w))).ZipFolder,
              Event.New (Send.crocOptions w (options.getD (NewOptions w)))],
            crocOptions := some (Send.crocOptions w (options.getD (NewOptions w))),
            spawned := none }
        | none =>
          { request := some (newTransferRequest w SendTx).2, err := none,
            trace := [Event.GetFilesInfo [fileAtPath]
              (Send.crocOptions w (options.getD (NewOptions w))).ZipFolder,
              Event.New (Send.crocOptions w (options.getD (NewOptions w))), Event.go],
            crocOptions := some (Send.crocOptions w (options.getD (NewOptions w))),
            spawned := some
              { options := options.getD (NewOptions w)
                crocClient :=
                  { Options := Send.crocOptions w (options.getD (NewOptions w))
                    Context := some (newTransferRequest w SendTx).1
                    Handlers := Send.bridge handlers (newTransferRequest w SendTx).2 }
                files := (w.GetFilesInfo [fileAtPath]
                  (Send.crocOptions w (options.getD (NewOptions w))).ZipFolder).1
                handlers := handlers
                request := (newTransferRequest w SendTx).2 } } := by
  have hp2 : ¬ fileAtPath.length = 0 := fun h => hp ((String.length_eq_zero_iff _).mp h)
  have hs2 : ¬ (options.getD (NewOptions w)).SharedSecret.length = 0 :=
    fun h => hs ((String.length_eq_zero_iff _).mp h)
  cases options with
  | none =>
    simp only [Option.getD_none] at hs2 ⊢
    simp [Send, hp2, hs2]
  | some o =>
    simp only [Option.getD_some] at hs2 ⊢
    simp [Send, hp2, hs2]

/-- Past the two checks, `Send` builds the configuration of lines 113-141 from the defaulted options. -/
theorem Send_crocOptions_of_valid (w : World) (fileAtPath : String) (options : Option Options)
    (handlers : Option Handlers) (hp : fileAtPath ≠ "")
    (hs : (options.getD (NewOptions w)).SharedSecret ≠ "") :
    (Send w fileAtPath options handlers).crocOptions
      = some (Send.crocOptions w (options.getD (NewOptions w))) := by
  rw [Send_valid w fileAtPath options handlers hp hs]
  split
  · rfl
  · split <;> rfl

/-- A call of `Send` that returns no error returns the new request and starts the unit over it. -/
theorem Send_of_ok (w : World) (fileAtPath : String) (options : Option Options)
    (handlers : Option Handlers)
    (hok : (Send w fileAtPath options handlers).err = none) :
    (Send w fileAtPath options handlers).request = some (newTransferRequest w SendTx).2
    ∧ (Send w fileAtPath options handlers).spawned = some
        { options := options.getD (NewOptions w)
          crocClient :=
            { Options := Send.crocOptions w (options.getD (NewOptions w))
              Context := some (newTransferRequest w SendTx).1
              Handlers := Send.bridge handlers (newTransferRequest w SendTx).2 }
          files := (w.GetFilesInfo [fileAtPath]
            (Send.crocOptions w (options.getD (NewOptions w))).ZipFolder).1
          handlers := handlers
          request := (newTransferRequest w SendTx).2 } := by
  by_cases hp : fileAtPath = ""
  · subst hp
    simp [Send_empty_path] at hok
  · by_cases hs : (options.getD (NewOptions w)).SharedSecret = ""
    · rw [Send_empty_secret w fileAtPath options handlers hp hs] at hok
      simp at hok
    · rw [Send_valid w fileAtPath options handlers hp hs] at hok ⊢
      split at hok
      · simp at hok
      · split at hok
        · simp at hok
        · rename_i h1 _ h2
          simp [h1, h2]

/-- What the unit of a successful `Send` captured. -/
theorem Send_spawned_of_ok (w : World) (fileAtPath : String) (options : Option Options)
    (handlers : Option Handlers)
    (hok : (Send w fileAtPath options handlers).err = none) :
    ∃ r g, (Send w fileAtPath options handlers).request = some r
      ∧ (Send w fileAtPath options handlers).spawned = some g
      ∧ g.request = r ∧ g.handlers = handlers
      ∧ g.options = options.getD (NewOptions w)
      ∧ g.crocClient.Handlers = Send.bridge handlers r := by
  obtain ⟨hreq, hsp⟩ := Send_of_ok w fileAtPath options handlers hok
  exact ⟨_, _, hreq, hsp, rfl, rfl, rfl, rfl⟩

/-- The installed `TransferStarted` function makes one call, with the request's
identifier. -/
theorem callback_bridge_started (c : croc.Client) (h : Handlers) (r : TransferRequest)
    (hc : c.Handlers = Send.bridge (some h) r) :
    c.callback EngineCall.started = [HandlerCall.TransferStarted r.ID] := by
  simp [croc.Client.callback, hc, Send.bridge]

/-- The installed `TransferProgress` function makes one call, with the request's
identifier before its five arguments. -/
theorem callback_bridge_progress (c : croc.Client) (h : Handlers) (r : TransferRequest)
    (hc : c.Handlers = Send.bridge (some h) r) (fileSize bytesTransferred msElapsed
      totalBytesTransferred totalMsElapsed : Int) :
    c.callback
        (EngineCall.progress fileSize bytesTransferred msElapsed totalBytesTransferred
          totalMsElapsed)
      = [HandlerCall.TransferProgress r.ID fileSize bytesTransferred msElapsed
          totalBytesTransferred totalMsElapsed] := by
  simp [croc.Client.callback, hc, Send.bridge]

/-- Through the installed functions, a script of engine callbacks makes as many
calls as it has callbacks. -/
theorem callback_bridge_length (c : croc.Client) (h : Handlers) (r : TransferRequest)
    (hc : c.Handlers = Send.bridge (some h) r) (script : List EngineCall) :
    (script.flatMap c.callback).length = script.length := by
  induction script with
  | nil => rfl
  | cons x xs ih =>
    cases x <;>
      simp [List.flatMap_cons, callback_bridge_started c h r hc,
        callback_bridge_progress c h r hc, ih]

/-- No callback of the engine reaches `TransferComplete`. -/
theorem callback_not_complete (c : croc.Client) (hdl : Option Handlers) (r : TransferRequest)
    (hc : c.Handlers = Send.bridge hdl r) (script : List EngineCall) :
    ∀ x ∈ script.flatMap c.callback, (Event.handler x).isComplete = false := by
  intro x hx
  rw [List.mem_flatMap] at hx
  obtain ⟨ec, _, hx⟩ := hx
  cases hdl with
  | none =>
    cases ec <;> simp [croc.Client.callback, hc, Send.bridge] at hx
  | some h =>
    cases ec <;> simp [croc.Client.callback, hc, Send.bridge] at hx <;> subst hx <;> rfl

/-- The handler calls among the events of a list of handler calls are all of
them. -/
theorem filter_isHandlerCall_map (l : List HandlerCall) :
    (l.map Event.handler).filter Event.isHandlerCall = l.map Event.handler := by
  induction l with
  | nil => rfl
  | cons a as ih => simp [List.filter_cons, Event.isHandlerCall, ih]

/-- The calls a unit with handlers makes on the caller's interface: the bridged
ones, then the completion call. -/
theorem Goroutine.run_handler_calls (w : World) (g : Goroutine) (p : Process) (h : Handlers)
    (hh : g.handlers = some h) :
    (g.run w p).trace.filter Event.isHandlerCall
      = (((w.ClientSend g.crocClient.Options g.files).1.flatMap g.crocClient.callback)
          ++ [HandlerCall.TransferComplete g.request.ID
                (w.ClientSend g.crocClient.Options g.files).2]).map Event.handler := by
  by_cases hd : g.options.DebugWrapper = true
  · simp [Goroutine.run, hd, hh, List.filter_cons, Event.isHandlerCall,
      filter_isHandlerCall_map]
  · simp [Goroutine.run, hd, hh, List.filter_cons, Event.isHandlerCall,
      filter_isHandlerCall_map]

/-- The trace of a unit with handlers, cut around its completion call. -/
theorem Goroutine.run_complete_split (w : World) (g : Goroutine) (p : Process) (h : Handlers)
    (hh : g.handlers = some h)
    (hb : g.crocClient.Handlers = Send.bridge g.handlers g.request) :
    ∃ pre post,
      (g.run w p).trace
        = pre ++ [Event.ClientReturn (w.ClientSend g.crocClient.Options g.files).2,
            Event.handler (HandlerCall.TransferComplete g.request.ID
              (w.ClientSend g.crocClient.Options g.files).2),
            Event.ctxCancel g.request.ctxCancel] ++ post
      ∧ (∀ e ∈ pre, e.isComplete = false ∧ e.isCancel = false)
      ∧ (∀ e ∈ post, e.isHandlerCall = false ∧ e.isCancel = false) := by
  have hnc := callback_not_complete g.crocClient g.handlers g.request hb
    (w.ClientSend g.crocClient.Options g.files).1
  have hpre : ∀ front : List Event,
      (∀ e ∈ front, e.isComplete = false ∧ e.isCancel = false) →
      ∀ e ∈ front ++ [Event.ClientSend]
          ++ ((w.ClientSend g.crocClient.Options g.files).1.flatMap
                g.crocClient.callback).map Event.handler,
        e.isComplete = false ∧ e.isCancel = false := by
    intro front hfront e he
    simp only [List.mem_append, List.mem_singleton, List.mem_map] at he
    rcases he with (he | rfl) | ⟨x, hx, rfl⟩
    · exact hfront e he
    · exact ⟨rfl, rfl⟩
    · exact ⟨hnc x hx, rfl⟩
  by_cases hd : g.options.DebugWrapper = true
  · refine ⟨_, [], ?_, hpre [] (by simp), by simp⟩
    simp [Goroutine.run, hd, hh]
  · refine ⟨_, [Event.Close w.Pipe.2, Event.Close w.Pipe.1, Event.setStderr p.Stderr], ?_,
      hpre [Event.Pipe w.Pipe.1 w.Pipe.2, Event.setStderr w.Pipe.2]
        (by simp [Event.isComplete, Event.isCancel]),
      by simp [Event.isHandlerCall, Event.isCancel]⟩
    simp [Goroutine.run, hd, hh]

/-- Every call of `Cancel()` adds one invocation of the cancel function to those of the unit. -/
theorem history_countP (r : TransferRequest) : ∀ (sched : List Bool) (evs : List Event),
    (history r sched evs).countP Event.isCancel
      = evs.countP Event.isCancel + sched.count true := by
  intro sched
  induction sched with
  | nil => intro evs; simp [history]
  | cons b bs ih =>
    intro evs
    cases b with
    | true =>
      simp [history, TransferRequest.Cancel, ih, Event.isCancel, List.countP_cons]
      omega
    | false =>
      cases evs with
      | nil => simp [history, ih]
      | cons e es =>
        simp [history, ih, List.countP_cons]
        omega

/-- An event that is no handler call is no completion call. -/
theorem Event.isComplete_of_not_handler {e : Event} (h : e.isHandlerCall = false) :
    e.isComplete = false := by
  cases e <;> first | rfl | simp [Event.isHandlerCall] at h

/-- A trace cut around its completion call has one completion call. -/
theorem countP_isComplete_of_split (tr pre post : List Event) (x y z : Event)
    (htr : tr = pre ++ [x, y, z] ++ post)
    (hpre : ∀ e ∈ pre, e.isComplete = false ∧ e.isCancel = false)
    (hpost : ∀ e ∈ post, e.isHandlerCall = false ∧ e.isCancel = false)
    (hx : x.isComplete = false) (hy : y.isComplete = true) (hz : z.isComplete = false) :
    tr.countP Event.isComplete = 1 := by
  have h1 : pre.countP Event.isComplete = 0 := by
    rw [List.countP_eq_zero]
    intro e he
    simp [(hpre e he).1]
  have h2 : post.countP Event.isComplete = 0 := by
    rw [List.countP_eq_zero]
    intro e he
    simp [Event.isComplete_of_not_handler (hpost e he).1]
  rw [htr, List.countP_append, List.countP_append, h1, h2]
  simp [List.countP_cons, hx, hy, hz]

/-- The unit invokes the cancel function once, after the engine has returned and before the deferred function. -/
theorem Goroutine.run_cancel_split (w : World) (g : Goroutine) (p : Process) :
    ∃ pre post, (g.run w p).trace = pre ++ [Event.ctxCancel g.request.ctxCancel] ++ post
      ∧ (∀ e ∈ pre, e.isCancel = false)
      ∧ Event.ClientReturn (w.ClientSend g.crocClient.Options g.files).2 ∈ pre
      ∧ (∀ e ∈ post, e.isCancel = false ∧ e.isHandlerCall = false) := by
  have hmap : ∀ l : List HandlerCall, ∀ e ∈ l.map Event.handler, e.isCancel = false := by
    intro l e he
    rw [List.mem_map] at he
    obtain ⟨x, _, rfl⟩ := he
    rfl
  by_cases hd : g.options.DebugWrapper = true
  · refine ⟨[Event.ClientSend]
        ++ ((w.ClientSend g.crocClient.Options g.files).1.flatMap g.crocClient.callback).map
            Event.handler
        ++ [Event.ClientReturn (w.ClientSend g.crocClient.Options g.files).2]
        ++ (match g.handlers with
            | some _ => [HandlerCall.TransferComplete g.request.ID
                (w.ClientSend g.crocClient.Options g.files).2]
            | none => []).map Event.handler,
      [], ?_, ?_, ?_, ?_⟩
    · simp [Goroutine.run, hd]
    · intro e he
      simp only [List.mem_append, List.mem_singleton] at he
      rcases he with ((rfl | he) | rfl) | he
      · rfl
      · exact hmap _ e he
      · rfl
      · exact hmap _ e he
    · simp
    · simp
  · refine ⟨[Event.Pipe w.Pipe.1 w.Pipe.2, Event.setStderr w.Pipe.2] ++ [Event.ClientSend]
        ++ ((w.ClientSend g.crocClient.Options g.files).1.flatMap g.crocClient.callback).map
            Event.handler
        ++ [Event.ClientReturn (w.ClientSend g.crocClient.Options g.files).2]
        ++ (match g.handlers with
            | some _ => [HandlerCall.TransferComplete g.request.ID
                (w.ClientSend g.crocClient.Options g.files).2]
            | none => []).map Event.handler,
      [Event.Close w.Pipe.2, Event.Close w.Pipe.1, Event.setStderr p.Stderr], ?_, ?_, ?_, ?_⟩
    · simp [Goroutine.run, hd]
    · intro e he
      simp only [List.mem_append, List.mem_singleton, List.mem_cons, List.mem_nil_iff,
        or_false] at he
      rcases he with ((((rfl | rfl) | rfl) | he) | rfl) | he
      · rfl
      · rfl
      · rfl
      · exact hmap _ e he
      · rfl
      · exact hmap _ e he
    · simp
    · simp [Event.isCancel, Event.isHandlerCall]

/-- A trace cut around its cancel invocation has one cancel invocation. -/
theorem countP_isCancel_of_split (tr pre post : List Event) (ctx : Nat)
    (htr : tr = pre ++ [Event.ctxCancel ctx] ++ post)
    (hpre : ∀ e ∈ pre, e.isCancel = false)
    (hpost : ∀ e ∈ post, e.isCancel = false ∧ e.isHandlerCall = false) :
    tr.countP Event.isCancel = 1 := by
  have h1 : pre.countP Event.isCancel = 0 := by
    rw [List.countP_eq_zero]
    intro e he
    simp [hpre e he]
  have h2 : post.countP Event.isCancel = 0 := by
    rw [List.countP_eq_zero]
    intro e he
    simp [(hpost e he).1]
  rw [htr, List.countP_append, List.countP_append, h1, h2]
  simp [List.countP_cons, Event.isCancel]

/-- For an overriding primary relay that is empty and a default that is not,
the configuration names no relay at all. -/
theorem Send_crocOptions_relays_empty (w : World) (o : Options)
    (hd : w.DEFAULT_RELAY ≠ "") (ho : o.RelayAddress = "") :
    (Send.crocOptions w o).RelayAddress = "" ∧ (Send.crocOptions w o).RelayAddress6 = "" := by
  have h : ¬ "" = w.DEFAULT_RELAY := fun h => hd h.symm
  simp [Send.crocOptions, h, ho]

/-! ## The claims -/

/-- Claim C1: if the path is empty, or the shared secret after defaulting (the
caller's when options are supplied, the generated one when they are omitted) is
empty, `Send` returns a non-nil error having had no effect at all (no file
enumeration, no engine construction, no unit started); with an empty path the
error is the one for the path, whatever the secret. -/
theorem Send_rejects_empty_path_or_secret (w : World) (fileAtPath : String)
    (options : Option Options) (handlers : Option Handlers)
    (h : fileAtPath = "" ∨ (options.getD (NewOptions w)).SharedSecret = "") :
    (Send w fileAtPath options handlers).err ≠ none
      ∧ (Send w fileAtPath options handlers).trace = []
      ∧ (Send w fileAtPath options handlers).spawned = none
      ∧ (fileAtPath = "" →
          (Send w fileAtPath options handlers).err
            = some (errors.New "fileAtPath is not set")) := by
  by_cases hp : fileAtPath = ""
  · subst hp
    simp [Send_empty_path]
  · rcases h with h | h
    · exact absurd h hp
    · rw [Send_empty_secret w fileAtPath options handlers hp h]
      simp [hp]

/-- Claim C1 at concrete inputs: a blank secret in supplied options, an empty
generated secret with options omitted, and an empty path together with a blank
secret. -/
theorem Send_rejects_empty_path_or_secret_witness :
    ((Send sampleWorld "a.txt" (some blankSecret) (some sampleHandlers)).err ≠ none
      ∧ (Send sampleWorld "a.txt" (some blankSecret) (some sampleHandlers)).trace = [])
    ∧ ((Send muteWorld "a.txt" none (some sampleHandlers)).err ≠ none
      ∧ (Send muteWorld "a.txt" none (some sampleHandlers)).trace = [])
    ∧ (Send sampleWorld "" (some blankSecret) (some sampleHandlers)).err
        = some (errors.New "fileAtPath is not set") :=
  ⟨⟨(Send_rejects_empty_path_or_secret sampleWorld "a.txt" (some blankSecret)
        (some sampleHandlers) (Or.inr (by decide))).1,
      (Send_rejects_empty_path_or_secret sampleWorld "a.txt" (some blankSecret)
        (some sampleHandlers) (Or.inr (by decide))).2.1⟩,
    ⟨(Send_rejects_empty_path_or_secret muteWorld "a.txt" none (some sampleHandlers)
        (Or.inr (by decide))).1,
      (Send_rejects_empty_path_or_secret muteWorld "a.txt" none (some sampleHandlers)
        (Or.inr (by decide))).2.1⟩,
    (Send_rejects_empty_path_or_secret sampleWorld "" (some blankSecret) (some sampleHandlers)
      (Or.inl rfl)).2.2.2 rfl⟩

/-- Claim C2: whenever `Send` returns a non-nil error the request handle is
nil, no unit is started (none is recorded and the `go` statement is not among
the effects) and no method of the caller's interface has been called; whenever
it returns a nil error the request handle is not nil. -/
theorem Send_error_short_circuits (w : World) (fileAtPath : String)
    (options : Option Options) (handlers : Option Handlers) :
    ((Send w fileAtPath options handlers).err ≠ none →
        (Send w fileAtPath options handlers).request = none
        ∧ (Send w fileAtPath options handlers).spawned = none
        ∧ Event.go ∉ (Send w fileAtPath options handlers).trace
        ∧ ∀ c, Event.handler c ∉ (Send w fileAtPath options handlers).trace)
    ∧ ((Send w fileAtPath options handlers).err = none →
        (Send w fileAtPath options handlers).request ≠ none) := by
  by_cases hp : fileAtPath = ""
  · subst hp
    simp [Send_empty_path]
  · by_cases hs : (options.getD (NewOptions w)).SharedSecret = ""
    · rw [Send_empty_secret w fileAtPath options handlers hp hs]
      simp
    · rw [Send_valid w fileAtPath options handlers hp hs]
      split
      · simp
      · split <;> simp

/-- Claim C2 at concrete inputs: a failing enumeration, a failing engine
constructor, and a successful call. -/
theorem Send_error_short_circuits_witness :
    (Send failingWorld "a.txt" none (some sampleHandlers)).request = none
      ∧ (Send failingWorld "a.txt" none (some sampleHandlers)).spawned = none
      ∧ (Send refusingWorld "a.txt" none (some sampleHandlers)).request = none
      ∧ (Send sampleWorld "a.txt" none (some sampleHandlers)).request ≠ none :=
  ⟨((Send_error_short_circuits failingWorld "a.txt" none (some sampleHandlers)).1
      (by decide)).1,
    ((Send_error_short_circuits failingWorld "a.txt" none (some sampleHandlers)).1
      (by decide)).2.1,
    ((Send_error_short_circuits refusingWorld "a.txt" none (some sampleHandlers)).1
      (by decide)).1,
    (Send_error_short_circuits sampleWorld "a.txt" none (some sampleHandlers)).2 (by decide)⟩

/-- Claim C3: in the configuration `Send` builds from supplied options, a
primary relay that differs from `models.DEFAULT_RELAY` is kept and the
secondary relay is cleared; a primary relay equal to the default with a
secondary relay that differs from `models.DEFAULT_RELAY6` has the primary
cleared and the secondary kept; with both at their defaults both are passed
through.  This holds for every value of the two constants. -/
theorem Send_relay_precedence (w : World) (fileAtPath : String) (o : Options)
    (handlers : Option Handlers) (hp : fileAtPath ≠ "") (hs : o.SharedSecret ≠ "") :
    ∃ cfg, (Send w fileAtPath (some o) handlers).crocOptions = some cfg
      ∧ (o.RelayAddress ≠ w.DEFAULT_RELAY →
          cfg.RelayAddress6 = "" ∧ cfg.RelayAddress = o.RelayAddress)
      ∧ (o.RelayAddress = w.DEFAULT_RELAY → o.RelayAddress6 ≠ w.DEFAULT_RELAY6 →
          cfg.RelayAddress = "" ∧ cfg.RelayAddress6 = o.RelayAddress6)
      ∧ (o.RelayAddress = w.DEFAULT_RELAY → o.RelayAddress6 = w.DEFAULT_RELAY6 →
          cfg.RelayAddress = o.RelayAddress ∧ cfg.RelayAddress6 = o.RelayAddress6) := by
  refine ⟨_, Send_crocOptions_of_valid w fileAtPath (some o) handlers hp hs, ?_, ?_, ?_⟩
  · intro h
    simp [Send.crocOptions, h]
  · intro h h6
    simp [Send.crocOptions, h, h6]
  · intro h h6
    simp [Send.crocOptions, h, h6]

/-- Claim C3 at concrete inputs: the primary relay overridden, the secondary
relay overridden, neither overridden. -/
theorem Send_relay_precedence_witness :
    (∃ cfg, (Send sampleWorld "a.txt" (some customRelay) none).crocOptions = some cfg
      ∧ cfg.RelayAddress6 = "" ∧ cfg.RelayAddress = "custom.example.com")
    ∧ (∃ cfg, (Send sampleWorld "a.txt" (some customRelay6) none).crocOptions = some cfg
      ∧ cfg.RelayAddress = "" ∧ cfg.RelayAddress6 = "custom6.example.com")
    ∧ (∃ cfg, (Send sampleWorld "a.txt" (some (NewOptions sampleWorld)) none).crocOptions
        = some cfg
      ∧ cfg.RelayAddress = "croc.schollz.com" ∧ cfg.RelayAddress6 = "croc6.schollz.com") := by
  refine ⟨?_, ?_, ?_⟩
  · obtain ⟨cfg, h, h1, _, _⟩ :=
      Send_relay_precedence sampleWorld "a.txt" customRelay none (by decide) (by decide)
    exact ⟨cfg, h, h1 (by decide)⟩
  · obtain ⟨cfg, h, _, h2, _⟩ :=
      Send_relay_precedence sampleWorld "a.txt" customRelay6 none (by decide) (by decide)
    exact ⟨cfg, h, h2 (by decide) (by decide)⟩
  · obtain ⟨cfg, h, _, _, h3⟩ :=
      Send_relay_precedence sampleWorld "a.txt" (NewOptions sampleWorld) none (by decide)
        (by decide)
    exact ⟨cfg, h, h3 (by decide) (by decide)⟩

/-- Claim C4 fails as stated: with the primary relay overridden by the empty
string (so the two relays are not both at their defaults) the configuration has
both relay addresses empty, hence not exactly one of them non-empty. -/
theorem Send_relay_family_counterexample :
    ¬ (emptyRelay.RelayAddress = sampleWorld.DEFAULT_RELAY
        ∧ emptyRelay.RelayAddress6 = sampleWorld.DEFAULT_RELAY6)
    ∧ ∃ cfg, (Send sampleWorld "a.txt" (some emptyRelay) none).crocOptions = some cfg
        ∧ cfg.RelayAddress = "" ∧ cfg.RelayAddress6 = ""
        ∧ ¬ ((cfg.RelayAddress ≠ "" ∧ cfg.RelayAddress6 = "")
              ∨ (cfg.RelayAddress = "" ∧ cfg.RelayAddress6 ≠ "")) := by
  refine ⟨by decide, _, rfl, ?_, ?_, ?_⟩ <;> decide

/-- Claim C4 as amended: when the two relays are not both at their defaults, at
least one of the two relay addresses of the configuration is empty, and exactly
one of them is non-empty if and only if the override that is kept (the primary
relay when it differs from its default, the secondary relay otherwise) is
itself non-empty. -/
theorem Send_relay_family (w : World) (fileAtPath : String) (o : Options)
    (handlers : Option Handlers) (hp : fileAtPath ≠ "") (hs : o.SharedSecret ≠ "")
    (hd : ¬ (o.RelayAddress = w.DEFAULT_RELAY ∧ o.RelayAddress6 = w.DEFAULT_RELAY6)) :
    ∃ cfg, (Send w fileAtPath (some o) handlers).crocOptions = some cfg
      ∧ (cfg.RelayAddress = "" ∨ cfg.RelayAddress6 = "")
      ∧ (((cfg.RelayAddress ≠ "" ∧ cfg.RelayAddress6 = "")
            ∨ (cfg.RelayAddress = "" ∧ cfg.RelayAddress6 ≠ ""))
          ↔ (if o.RelayAddress ≠ w.DEFAULT_RELAY then o.RelayAddress else o.RelayAddress6)
              ≠ "") := by
  refine ⟨_, Send_crocOptions_of_valid w fileAtPath (some o) handlers hp hs, ?_, ?_⟩
  · by_cases h : o.RelayAddress = w.DEFAULT_RELAY
    · have h6 : o.RelayAddress6 ≠ w.DEFAULT_RELAY6 := fun h6 => hd ⟨h, h6⟩
      simp [Send.crocOptions, h, h6]
    · simp [Send.crocOptions, h]
  · by_cases h : o.RelayAddress = w.DEFAULT_RELAY
    · have h6 : o.RelayAddress6 ≠ w.DEFAULT_RELAY6 := fun h6 => hd ⟨h, h6⟩
      simp [Send.crocOptions, h, h6]
    · simp [Send.crocOptions, h]

/-- Claim C4 as amended, at the options with the primary relay overridden by a
host name. -/
theorem Send_relay_family_witness :
    ∃ cfg, (Send sampleWorld "a.txt" (some customRelay) none).crocOptions = some cfg
      ∧ (cfg.RelayAddress = "" ∨ cfg.RelayAddress6 = "")
      ∧ (((cfg.RelayAddress ≠ "" ∧ cfg.RelayAddress6 = "")
            ∨ (cfg.RelayAddress = "" ∧ cfg.RelayAddress6 ≠ ""))
          ↔ (if customRelay.RelayAddress ≠ sampleWorld.DEFAULT_RELAY then
                customRelay.RelayAddress
              else customRelay.RelayAddress6) ≠ "") :=
  Send_relay_family sampleWorld "a.txt" customRelay none (by decide) (by decide) (by decide)

/-- Claim C5 fails as stated: in a world whose constant `models.DEFAULT_RELAY`
is not the host name `NewOptions` writes, a call with options omitted builds a
configuration whose secondary relay is empty, not the default
`croc6.schollz.com` of `NewOptions()`. -/
theorem Send_default_options_counterexample :
    ∃ cfg, (Send resolvedWorld "a.txt" none none).crocOptions = some cfg
      ∧ (NewOptions resolvedWorld).RelayAddress6 = "croc6.schollz.com"
      ∧ cfg.RelayAddress = "croc.schollz.com"
      ∧ cfg.RelayAddress6 = ""
      ∧ cfg.RelayAddress6 ≠ (NewOptions resolvedWorld).RelayAddress6 := by
  refine ⟨_, rfl, ?_, ?_, ?_, ?_⟩ <;> decide

/-- Claim C5 as amended: with options omitted and a non-empty generated secret,
the configuration `Send` builds carries the defaults of `NewOptions()` in every
field other than the two relay addresses (sender role, the generated secret,
the five ports in order, the relay password, curve, hash algorithm, empty
throttle, every toggle off), for every value of the constants of `models`.  The
relay addresses are the two hosts of `NewOptions()` exactly when the two
constants are those host names; when `models.DEFAULT_RELAY` is another value
the secondary relay is cleared, and when it is that host name while
`models.DEFAULT_RELAY6` is another value the primary relay is cleared. -/
theorem Send_default_options_fields (w : World) (fileAtPath : String)
    (handlers : Option Handlers) (hp : fileAtPath ≠ "") (hs : w.GetRandomName ≠ "") :
    ∃ cfg, (Send w fileAtPath none handlers).crocOptions = some cfg
      ∧ cfg =
          { SharedSecret := w.GetRandomName
            IsSender := true
            Debug := false
            NoPrompt := false
            RelayAddress := cfg.RelayAddress
            RelayAddress6 := cfg.RelayAddress6
            Stdout := false
            DisableLocal := false
            OnlyLocal := false
            IgnoreStdin := false
            RelayPorts := ["9009", "9010", "9011", "9012", "9013"]
            Ask := false
            NoMultiplexing := false
            RelayPassword := "pass123"
            SendingText := false
            NoCompress := false
            Overwrite := false
            Curve := "p256"
            HashAlgorithm := "xxhash"
            ThrottleUpload := ""
            ZipFolder := false }
      ∧ ((cfg.RelayAddress = "croc.schollz.com" ∧ cfg.RelayAddress6 = "croc6.schollz.com")
          ↔ (w.DEFAULT_RELAY = "croc.schollz.com"
              ∧ w.DEFAULT_RELAY6 = "croc6.schollz.com"))
      ∧ (w.DEFAULT_RELAY ≠ "croc.schollz.com" →
          cfg.RelayAddress = "croc.schollz.com" ∧ cfg.RelayAddress6 = "")
      ∧ (w.DEFAULT_RELAY = "croc.schollz.com" → w.DEFAULT_RELAY6 ≠ "croc6.schollz.com" →
          cfg.RelayAddress = "" ∧ cfg.RelayAddress6 = "croc6.schollz.com") := by
  have hports : strings.Split "9009,9010,9011,9012,9013" ','
      = ["9009", "9010", "9011", "9012", "9013"] := by decide
  have hne : ("croc.schollz.com" : String) ≠ "" := by decide
  have hne6 : ("croc6.schollz.com" : String) ≠ "" := by decide
  refine ⟨_, Send_crocOptions_of_valid w fileAtPath none handlers hp hs, ?_, ?_, ?_, ?_⟩
  · by_cases hr : w.DEFAULT_RELAY = "croc.schollz.com"
    · by_cases hr6 : w.DEFAULT_RELAY6 = "croc6.schollz.com"
      · simp [Send.crocOptions, NewOptions, hr, hr6, hports]
      · simp [Send.crocOptions, NewOptions, hr, Ne.symm hr6, hports]
    · simp [Send.crocOptions, NewOptions, Ne.symm hr, hports]
  · by_cases hr : w.DEFAULT_RELAY = "croc.schollz.com"
    · by_cases hr6 : w.DEFAULT_RELAY6 = "croc6.schollz.com"
      · simp [Send.crocOptions, NewOptions, hr, hr6]
      · simp [Send.crocOptions, NewOptions, hr, hr6, Ne.symm hr6, Ne.symm hne]
    · simp [Send.crocOptions, NewOptions, hr, Ne.symm hr, Ne.symm hne6]
  · intro hr
    simp [Send.crocOptions, NewOptions, Ne.symm hr]
  · intro hr hr6
    simp [Send.crocOptions, NewOptions, hr, Ne.symm hr6]

/-- Claim C5 as amended, in the sample world, where the two constants are the
host names and the whole configuration is the one of `NewOptions()`. -/
theorem Send_default_options_fields_witness :
    ∃ cfg, (Send sampleWorld "a.txt" none none).crocOptions = some cfg
      ∧ cfg.SharedSecret = "alpha-beta-gamma"
      ∧ cfg.RelayPorts = ["9009", "9010", "9011", "9012", "9013"]
      ∧ cfg.RelayAddress = "croc.schollz.com"
      ∧ cfg.RelayAddress6 = "croc6.schollz.com" := by
  obtain ⟨cfg, h, hfields, hiff, _, _⟩ :=
    Send_default_options_fields sampleWorld "a.txt" none (by decide) (by decide)
  have hrel := hiff.mpr ⟨rfl, rfl⟩
  refine ⟨cfg, h, ?_, ?_, hrel.1, hrel.2⟩
  · rw [hfields]
    rfl
  · rw [hfields]

/-- Claim C6: after a successful `Send` with handlers supplied, the engine's
`started()` makes the one call `TransferStarted(r.ID)` and its
`progress(a, b, c, d, e)` the one call `TransferProgress(r.ID, a, b, c, d, e)`,
`r` being the returned handle; the unit makes as many bridged calls as the
engine made callbacks, and its calls on the caller's interface are, in order,
the bridged ones and then the completion call. -/
theorem Send_handler_bridge (w : World) (fileAtPath : String) (options : Option Options)
    (h : Handlers) (p : Process)
    (hok : (Send w fileAtPath options (some h)).err = none) :
    ∃ r g, (Send w fileAtPath options (some h)).request = some r
      ∧ (Send w fileAtPath options (some h)).spawned = some g
      ∧ g.crocClient.callback EngineCall.started = [HandlerCall.TransferStarted r.ID]
      ∧ (∀ fileSize bytesTransferred msElapsed totalBytesTransferred totalMsElapsed : Int,
          g.crocClient.callback
              (EngineCall.progress fileSize bytesTransferred msElapsed totalBytesTransferred
                totalMsElapsed)
            = [HandlerCall.TransferProgress r.ID fileSize bytesTransferred msElapsed
                totalBytesTransferred totalMsElapsed])
      ∧ ((w.ClientSend g.crocClient.Options g.files).1.flatMap g.crocClient.callback).length
          = (w.ClientSend g.crocClient.Options g.files).1.length
      ∧ (g.run w p).trace.filter Event.isHandlerCall
          = (((w.ClientSend g.crocClient.Options g.files).1.flatMap g.crocClient.callback)
              ++ [HandlerCall.TransferComplete r.ID
                    (w.ClientSend g.crocClient.Options g.files).2]).map Event.handler := by
  obtain ⟨r, g, hreq, hsp, hr, hh, _, hb⟩ :=
    Send_spawned_of_ok w fileAtPath options (some h) hok
  refine ⟨r, g, hreq, hsp, callback_bridge_started _ h r hb,
    callback_bridge_progress _ h r hb, callback_bridge_length _ h r hb _, ?_⟩
  rw [← hr]
  exact Goroutine.run_handler_calls w g p h hh

/-- Claim C6 in the sample world: the calls the caller's interface receives for
an engine that reports a start and two progress steps. -/
theorem Send_handler_bridge_witness :
    (Send sampleWorld "a.txt" none (some sampleHandlers)).err = none
    ∧ ∃ r g, (Send sampleWorld "a.txt" none (some sampleHandlers)).request = some r
      ∧ (Send sampleWorld "a.txt" none (some sampleHandlers)).spawned = some g
      ∧ g.crocClient.callback EngineCall.started = [HandlerCall.TransferStarted r.ID]
      ∧ g.crocClient.callback (EngineCall.progress 10 4 1 4 1)
          = [HandlerCall.TransferProgress r.ID 10 4 1 4 1] := by
  refine ⟨by decide, ?_⟩
  obtain ⟨r, g, h1, h2, h3, h4, _⟩ :=
    Send_handler_bridge sampleWorld "a.txt" none sampleHandlers ⟨File.fd 2⟩ (by decide)
  exact ⟨r, g, h1, h2, h3, h4 10 4 1 4 1⟩

/-- Claim C7: in the unit of a successful `Send` with handlers supplied,
whatever error `err` the engine's send call returns, the effects are: some
effects without completion call or cancel invocation (among them every bridged
callback), then the engine's return of `err`, the call
`TransferComplete(r.ID, err)`, the invocation of the request's cancel function,
and after it no call on the caller's interface; the unit makes exactly one
completion call. -/
theorem Send_completion_once (w : World) (fileAtPath : String) (options : Option Options)
    (h : Handlers) (p : Process)
    (hok : (Send w fileAtPath options (some h)).err = none) :
    ∃ r g pre post, (Send w fileAtPath options (some h)).request = some r
      ∧ (Send w fileAtPath options (some h)).spawned = some g
      ∧ (g.run w p).trace
          = pre ++ [Event.ClientReturn (w.ClientSend g.crocClient.Options g.files).2,
              Event.handler (HandlerCall.TransferComplete r.ID
                (w.ClientSend g.crocClient.Options g.files).2),
              Event.ctxCancel r.ctxCancel] ++ post
      ∧ (∀ e ∈ pre, e.isComplete = false ∧ e.isCancel = false)
      ∧ (∀ e ∈ post, e.isHandlerCall = false ∧ e.isCancel = false)
      ∧ (g.run w p).trace.countP Event.isComplete = 1 := by
  obtain ⟨r, g, hreq, hsp, hr, hh, _, hb⟩ :=
    Send_spawned_of_ok w fileAtPath options (some h) hok
  obtain ⟨pre, post, htr, h1, h2⟩ :=
    Goroutine.run_complete_split w g p h hh (by rw [hh, hr]; exact hb)
  rw [hr] at htr
  exact ⟨r, g, pre, post, hreq, hsp, htr, h1, h2,
    countP_isComplete_of_split _ pre post _ _ _ htr h1 h2 rfl rfl rfl⟩

/-- Claim C7 in the world whose engine fails: one completion call. -/
theorem Send_completion_once_witness :
    (Send brokenWorld "a.txt" none (some sampleHandlers)).err = none
    ∧ ∃ g, (Send brokenWorld "a.txt" none (some sampleHandlers)).spawned = some g
      ∧ (g.run brokenWorld ⟨File.fd 2⟩).trace.countP Event.isComplete = 1 := by
  refine ⟨by decide, ?_⟩
  obtain ⟨_, g, _, _, _, h2, _, _, _, h6⟩ :=
    Send_completion_once brokenWorld "a.txt" none sampleHandlers ⟨File.fd 2⟩ (by decide)
  exact ⟨g, h2, h6⟩

/-- Claim C8 fails as stated: when the caller calls `Cancel()` while the
transfer runs (here after the unit's fourth effect), the cancel function of the
request is invoked twice over the life of the request, once by `Cancel()` and
once at the end of the unit. -/
theorem Send_cancel_counterexample :
    ∃ r g, (Send sampleWorld "a.txt" none (some sampleHandlers)).request = some r
      ∧ (Send sampleWorld "a.txt" none (some sampleHandlers)).spawned = some g
      ∧ (history r [false, false, false, false, true]
            (g.run sampleWorld ⟨File.fd 2⟩).trace).count (Event.ctxCancel r.ctxCancel) = 2 :=
  ⟨_, _, rfl, rfl, by decide⟩

/-- Claim C8 as amended: the unit of a successful `Send` invokes the cancel
function of its request exactly once, after the engine's send call has returned
and with nothing but the deferred function after it, whatever the engine
returned; every call of `Cancel()` by the caller invokes it once more, so that
over the life of the request it is invoked once plus the number of calls of
`Cancel()`. -/
theorem Send_cancel_invocations (w : World) (fileAtPath : String) (options : Option Options)
    (handlers : Option Handlers) (p : Process) (sched : List Bool)
    (hok : (Send w fileAtPath options handlers).err = none) :
    ∃ r g pre post, (Send w fileAtPath options handlers).request = some r
      ∧ (Send w fileAtPath options handlers).spawned = some g
      ∧ (g.run w p).trace = pre ++ [Event.ctxCancel r.ctxCancel] ++ post
      ∧ (∀ e ∈ pre, e.isCancel = false)
      ∧ Event.ClientReturn (w.ClientSend g.crocClient.Options g.files).2 ∈ pre
      ∧ (∀ e ∈ post, e.isCancel = false ∧ e.isHandlerCall = false)
      ∧ (g.run w p).trace.countP Event.isCancel = 1
      ∧ (history r sched (g.run w p).trace).countP Event.isCancel
          = 1 + sched.count true := by
  obtain ⟨r, g, hreq, hsp, hr, _, _, _⟩ := Send_spawned_of_ok w fileAtPath options handlers hok
  obtain ⟨pre, post, htr, h1, h2, h3⟩ := Goroutine.run_cancel_split w g p
  rw [hr] at htr
  have hc := countP_isCancel_of_split _ pre post _ htr h1 h3
  exact ⟨r, g, pre, post, hreq, hsp, htr, h1, h2, h3, hc, by rw [history_countP, hc]⟩

/-- Claim C8 as amended, in the sample world with one call of `Cancel()`. -/
theorem Send_cancel_invocations_witness :
    (Send sampleWorld "a.txt" none (some sampleHandlers)).err = none
    ∧ ∃ r g, (Send sampleWorld "a.txt" none (some sampleHandlers)).request = some r
      ∧ (Send sampleWorld "a.txt" none (some sampleHandlers)).spawned = some g
      ∧ (g.run sampleWorld ⟨File.fd 2⟩).trace.countP Event.isCancel = 1
      ∧ (history r [false, false, false, false, true]
            (g.run sampleWorld ⟨File.fd 2⟩).trace).countP Event.isCancel
          = 1 + [false, false, false, false, true].count true := by
  refine ⟨by decide, ?_⟩
  obtain ⟨r, g, _, _, h1, h2, _, _, _, _, h7, h8⟩ :=
    Send_cancel_invocations sampleWorld "a.txt" none (some sampleHandlers) ⟨File.fd 2⟩
      [false, false, false, false, true] (by decide)
  exact ⟨r, g, h1, h2, h7, h8⟩

/-- Claim C9: in the unit of a successful `Send`, run from the process state
`p`: with `DebugWrapper` false, `os.Stderr` is the write end of the pipe while
the engine's send call runs (the two assignments to it are the unit's second
effect and its last, the call and its return lie between them) and the unit
leaves the process state `p`, whatever the engine returned; with `DebugWrapper`
true the unit never assigns to `os.Stderr` and the state is `p` throughout. -/
theorem Send_stderr_scoped (w : World) (fileAtPath : String) (options : Option Options)
    (handlers : Option Handlers) (p : Process)
    (hok : (Send w fileAtPath options handlers).err = none) :
    ∃ g, (Send w fileAtPath options handlers).spawned = some g
      ∧ ((options.getD (NewOptions w)).DebugWrapper = false →
          (g.run w p).during.Stderr = w.Pipe.2
          ∧ (g.run w p).final = p
          ∧ ∃ mid, (g.run w p).trace
              = [Event.Pipe w.Pipe.1 w.Pipe.2, Event.setStderr w.Pipe.2] ++ mid
                ++ [Event.Close w.Pipe.2, Event.Close w.Pipe.1, Event.setStderr p.Stderr]
            ∧ (∀ e ∈ mid, e.isSetStderr = false)
            ∧ Event.ClientSend ∈ mid
            ∧ Event.ClientReturn (w.ClientSend g.crocClient.Options g.files).2 ∈ mid)
      ∧ ((options.getD (NewOptions w)).DebugWrapper = true →
          (g.run w p).during = p
          ∧ (g.run w p).final = p
          ∧ ∀ e ∈ (g.run w p).trace, e.isSetStderr = false) := by
  obtain ⟨r, g, _, hsp, _, _, ho, _⟩ := Send_spawned_of_ok w fileAtPath options handlers hok
  have hmap : ∀ l : List HandlerCall, ∀ e ∈ l.map Event.handler, e.isSetStderr = false := by
    intro l e he
    rw [List.mem_map] at he
    obtain ⟨x, _, rfl⟩ := he
    rfl
  refine ⟨g, hsp, ?_, ?_⟩
  · intro hd
    rw [← ho] at hd
    refine ⟨by simp [Goroutine.run, hd], by simp [Goroutine.run, hd], ?_⟩
    refine ⟨[Event.ClientSend]
        ++ ((w.ClientSend g.crocClient.Options g.files).1.flatMap g.crocClient.callback).map
            Event.handler
        ++ [Event.ClientReturn (w.ClientSend g.crocClient.Options g.files).2]
        ++ (match g.handlers with
            | some _ => [HandlerCall.TransferComplete g.request.ID
                (w.ClientSend g.crocClient.Options g.files).2]
            | none => []).map Event.handler
        ++ [Event.ctxCancel g.request.ctxCancel], ?_, ?_, ?_, ?_⟩
    · simp [Goroutine.run, hd]
    · intro e he
      simp only [List.mem_append, List.mem_singleton] at he
      rcases he with (((rfl | he) | rfl) | he) | rfl
      · rfl
      · exact hmap _ e he
      · rfl
      · exact hmap _ e he
      · rfl
    · simp
    · simp
  · intro hd
    rw [← ho] at hd
    refine ⟨by simp [Goroutine.run, hd], by simp [Goroutine.run, hd], ?_⟩
    intro e he
    simp only [Goroutine.run, hd, Bool.not_true, Bool.false_eq_true, if_false, List.nil_append,
      List.append_nil, List.mem_append, List.mem_singleton] at he
    rcases he with (((rfl | he) | rfl) | he) | rfl
    · rfl
    · exact hmap _ e he
    · rfl
    · exact hmap _ e he
    · rfl

/-- Claim C9 in the world whose engine fails, with the redirection on, and in
the sample world with `DebugWrapper` set. -/
theorem Send_stderr_scoped_witness :
    (∃ g, (Send brokenWorld "a.txt" none none).spawned = some g
      ∧ (g.run brokenWorld ⟨File.fd 2⟩).during.Stderr = File.fd 4
      ∧ (g.run brokenWorld ⟨File.fd 2⟩).final = ⟨File.fd 2⟩)
    ∧ (∃ g, (Send sampleWorld "a.txt" (some debugWrapper) none).spawned = some g
      ∧ (g.run sampleWorld ⟨File.fd 2⟩).during = ⟨File.fd 2⟩
      ∧ (g.run sampleWorld ⟨File.fd 2⟩).final = ⟨File.fd 2⟩) := by
  constructor
  · obtain ⟨g, h1, h2, _⟩ :=
      Send_stderr_scoped brokenWorld "a.txt" none none ⟨File.fd 2⟩ (by decide)
    exact ⟨g, h1, (h2 (by decide)).1, (h2 (by decide)).2.1⟩
  · obtain ⟨g, h1, _, h3⟩ :=
      Send_stderr_scoped sampleWorld "a.txt" (some debugWrapper) none ⟨File.fd 2⟩ (by decide)
    exact ⟨g, h1, (h3 (by decide)).1, (h3 (by decide)).2.1⟩

/-- Claim C10: the relay ports of the configuration are the split of the
options' `RelayPorts` string on commas: one segment more than the string has
commas, no comma inside a segment, the segments joined by commas give the
string back, and the empty string gives the one empty segment. -/
theorem Send_relay_ports_split (w : World) (fileAtPath : String) (o : Options)
    (handlers : Option Handlers) (hp : fileAtPath ≠ "") (hs : o.SharedSecret ≠ "") :
    ∃ cfg, (Send w fileAtPath (some o) handlers).crocOptions = some cfg
      ∧ cfg.RelayPorts = strings.Split o.RelayPorts ','
      ∧ cfg.RelayPorts.length = o.RelayPorts.data.count ',' + 1
      ∧ (∀ seg ∈ cfg.RelayPorts, ',' ∉ seg.data)
      ∧ ",".intercalate cfg.RelayPorts = o.RelayPorts
      ∧ (o.RelayPorts = "" → cfg.RelayPorts = [""]) := by
  have hcfg : (Send.crocOptions w o).RelayPorts = strings.Split o.RelayPorts ',' := by
    simp only [Send.crocOptions]
    split_ifs <;> rfl
  have hsome : (Send w fileAtPath (some o) handlers).crocOptions
      = some (Send.crocOptions w o) :=
    Send_crocOptions_of_valid w fileAtPath (some o) handlers hp hs
  refine ⟨_, hsome, hcfg, ?_, ?_, ?_, ?_⟩
  · rw [hcfg]; exact strings.Split_length _ _
  · rw [hcfg]; exact strings.Split_no_sep _ _
  · rw [hcfg]; exact strings.Split_join _ _
  · intro h
    rw [hcfg, h]
    rfl

/-- Claim C10 at a port list with an empty segment inside and one at the end:
both are kept. -/
theorem Send_relay_ports_split_witness :
    ∃ cfg, (Send sampleWorld "a.txt" (some oddPorts) none).crocOptions = some cfg
      ∧ cfg.RelayPorts = ["9009", "", "9010", ""] := by
  obtain ⟨cfg, h, h1, _⟩ :=
    Send_relay_ports_split sampleWorld "a.txt" oddPorts none (by decide) (by decide)
  exact ⟨cfg, h, h1.trans (by decide)⟩

end crocmobile
